import Mathlib

/-!
Verification of the Mixxx controller-mapping engine (`src/mapping/mixxx.ts`)
of the djcontroller.js repository, via a shallow embedding in Lean 4.

JavaScript runtime failures (`TypeError` on property access of `undefined`)
are modelled by `Option`: a function that can throw returns `none` exactly
when the original code would throw.  JavaScript numbers produced by
`parseInt` are modelled by `JSNum` (an integer or `NaN`), and the strict
equality `===` used on them by `jsStrictEq` (`NaN === x` is `false`).
-/

namespace Mixxx

/-- Modelled from the spec: the generic element tree produced by the external
document parser (`@rgrove/parse-xml`, out of scope).  An element has a tag
name and ordered children; text nodes carry their content. -/
inductive XmlNode where
  | element (name : String) (children : List XmlNode) : XmlNode
  | text (content : String) : XmlNode

/-- Modelled from the spec: `isXmlElement` from the missing `utils` module —
tests whether a node is an element. -/
def isXmlElement : XmlNode → Bool
  | XmlNode.element _ _ => true
  | XmlNode.text _ => false

/-- Tag name of an element node (only meaningful on elements). -/
def elemName : XmlNode → String
  | XmlNode.element n _ => n
  | XmlNode.text _ => ""

/-- Children of an element node (only meaningful on elements). -/
def elemChildren : XmlNode → List XmlNode
  | XmlNode.element _ cs => cs
  | XmlNode.text _ => []

mutual

/-- Concatenated descendant text of a node, as exposed by the document
parser's `text` accessor. -/
def nodeText : XmlNode → String
  | XmlNode.text s => s
  | XmlNode.element _ cs => nodesText cs

/-- Concatenated descendant text of a list of nodes. -/
def nodesText : List XmlNode → String
  | [] => ""
  | n :: ns => nodeText n ++ nodesText ns

end

/-- Whitespace trimming on both ends of a character list. -/
def trimChars (cs : List Char) : List Char :=
  ((cs.dropWhile Char.isWhitespace).reverse.dropWhile Char.isWhitespace).reverse

/-- Modelled from the spec: the view of a flattened element exposes the
element's trimmed text content. -/
def viewText (n : XmlNode) : String :=
  String.mk (trimChars (nodeText n).data)

/-- Modelled from the spec: `xmlToObject` from the missing `utils` module —
the element-tree flattener, a keyed lookup from tag name to the first child
element with that name (first occurrence wins, per the spec's
recommendation). -/
def xmlToObject (nodes : List XmlNode) : String → Option XmlNode :=
  fun tag => nodes.find? (fun n => isXmlElement n && elemName n == tag)

/-- A JavaScript number as produced by `parseInt`: an integer or `NaN`. -/
inductive JSNum where
  | nan : JSNum
  | int (val : Int) : JSNum
deriving DecidableEq

/-- JavaScript strict equality on numbers: `NaN === x` is always false. -/
def jsStrictEq : JSNum → JSNum → Bool
  | JSNum.nan, _ => false
  | _, JSNum.nan => false
  | JSNum.int a, JSNum.int b => a == b

/-- Decimal value of a digit list. -/
def digitsVal (ds : List Char) : Nat :=
  ds.foldl (fun a c => a * 10 + (c.toNat - 48)) 0

/-- Hexadecimal digit test, as accepted by JavaScript `parseInt` with an
`0x` prefix. -/
def isHexDigitCh (c : Char) : Bool :=
  c.isDigit || ('a' ≤ c && c ≤ 'f') || ('A' ≤ c && c ≤ 'F')

/-- Value of a hexadecimal digit. -/
def hexDigitVal (c : Char) : Nat :=
  if c.isDigit then c.toNat - 48
  else if 'a' ≤ c && c ≤ 'f' then c.toNat - 87
  else c.toNat - 55

/-- Hexadecimal value of a hex-digit list. -/
def hexVal (ds : List Char) : Nat :=
  ds.foldl (fun a c => a * 16 + hexDigitVal c) 0

/-- Hexadecimal branch of JavaScript `parseInt` (after an `0x`/`0X` prefix). -/
def parseHexTail (sign : Int) (cs : List Char) : JSNum :=
  let ds := cs.takeWhile isHexDigitCh
  if ds.isEmpty then JSNum.nan else JSNum.int (sign * (hexVal ds : Int))

/-- Body of JavaScript `parseInt` after whitespace and sign handling:
an `0x`/`0X` prefix selects base 16, otherwise the longest leading run of
decimal digits is read; no digits yields `NaN`, trailing garbage is
ignored. -/
def parseIntCore (sign : Int) (cs : List Char) : JSNum :=
  match cs with
  | '0' :: 'x' :: rest => parseHexTail sign rest
  | '0' :: 'X' :: rest => parseHexTail sign rest
  | _ =>
    let ds := cs.takeWhile Char.isDigit
    if ds.isEmpty then JSNum.nan else JSNum.int (sign * (digitsVal ds : Int))

/-- JavaScript `parseInt` with no explicit radix: skip leading whitespace,
read an optional sign, then parse per `parseIntCore`. -/
def parseIntJS (s : String) : JSNum :=
  let cs := s.data.dropWhile Char.isWhitespace
  match cs with
  | '-' :: rest => parseIntCore (-1) rest
  | '+' :: rest => parseIntCore 1 rest
  | _ => parseIntCore 1 cs

/-- `BaseMapping` from `mixxx.ts`: group, key, status, midino. -/
structure BaseMapping where
  group : String
  key : String
  status : JSNum
  midino : JSNum
deriving DecidableEq

/-- `ControlMapping` from `mixxx.ts`: a base mapping plus option flags. -/
structure ControlMapping extends BaseMapping where
  options : List String
deriving DecidableEq

/-- `OutputMapping` from `mixxx.ts`: a base mapping plus optional numeric
fields (which `parseOutputMapping` never fills in — they stay absent).
The source's field names `on`/`off` are rendered `onValue`/`offValue`
because `on` is a reserved word in Lean. -/
structure OutputMapping extends BaseMapping where
  minimum : Option JSNum := none
  maximum : Option JSNum := none
  onValue : Option JSNum := none
  offValue : Option JSNum := none
deriving DecidableEq

/-- Modelled from the spec: `MappingInfo` from the missing `index` module —
optional name/author/description strings. -/
structure MappingInfo where
  name : Option String := none
  author : Option String := none
  description : Option String := none
deriving DecidableEq

/-- `MidiMapping` from `mixxx.ts`. -/
structure MidiMapping where
  info : MappingInfo
  controls : List ControlMapping
  outputs : List OutputMapping
deriving DecidableEq

/-- Modelled from the spec: `MidiMessage` from the missing `midi` module —
a raw 3-byte message; the code reads `msg.status`, `msg.data[0]` (here
`data1`) and `msg.data[1]` (here `data2`). -/
structure MidiMessage where
  status : Nat
  data1 : Nat
  data2 : Nat
deriving DecidableEq

/-- Modelled from the spec: the tagged control descriptor of an `Action`,
e.g. `{kind := "play"}`. -/
structure ControlDescriptor where
  kind : String
deriving DecidableEq

/-- Modelled from the spec: `Action` from the missing `action` module —
tag, control descriptor, optional deck, down flag. -/
structure Action where
  tag : String
  control : ControlDescriptor
  deck : Option Nat
  down : Bool
deriving DecidableEq

/-- Modelled from the spec: `Output` from the missing `output` module —
application output state, a mapping from `(group, key)` to a current
numeric value. -/
structure Output where
  values : List ((String × String) × JSNum)
deriving DecidableEq

/-- `parseMappingInfo` from `mixxx.ts` — every access is optional-chained,
so it never fails. -/
def parseMappingInfo (el : XmlNode) : MappingInfo :=
  let childs := xmlToObject (elemChildren el)
  { name := (childs "name").map viewText
    author := (childs "author").map viewText
    description := (childs "description").map viewText }

/-- `parseBaseMapping` from `mixxx.ts`: reads `group`, `key`, `status`,
`midino`.  A missing child makes the property access throw (`none`); the
texts of `status`/`midino` go through `parseInt`, which never throws (it
yields `NaN` on non-numeric text). -/
def parseBaseMapping (el : XmlNode) : Option BaseMapping :=
  let childs := xmlToObject (elemChildren el)
  match childs "group", childs "key", childs "status", childs "midino" with
  | some g, some k, some st, some mi =>
    some { group := viewText g, key := viewText k
           status := parseIntJS (viewText st), midino := parseIntJS (viewText mi) }
  | _, _, _, _ => none

/-- `parseControlMapping` from `mixxx.ts`: the base mapping plus the tag
names of the element children of the `options` element (accessing
`childs.options.children` throws when `options` is missing). -/
def parseControlMapping (el : XmlNode) : Option ControlMapping :=
  let childs := xmlToObject (elemChildren el)
  match parseBaseMapping el, childs "options" with
  | some base, some opts =>
    some { toBaseMapping := base
           options := ((elemChildren opts).filter isXmlElement).map elemName }
  | _, _ => none

/-- `parseOutputMapping` from `mixxx.ts`: only the base fields (the optional
minimum/maximum/on/off fields are never parsed — the body is a TODO). -/
def parseOutputMapping (el : XmlNode) : Option OutputMapping :=
  (parseBaseMapping el).map (fun base => { toBaseMapping := base })

/-- Left-to-right effectful map over a list in the `Option` monad: the
first failing parse aborts the whole traversal, like a thrown exception
inside `flatMap`. -/
def traverseOption {α β : Type} (f : α → Option β) : List α → Option (List β)
  | [] => some []
  | a :: as =>
    match f a, traverseOption f as with
    | some b, some bs => some (b :: bs)
    | _, _ => none

/-- `parseMidiMapping` from `mixxx.ts`.  Note the faithful modelling of the
bug: when the root has no `controller` child, `controller` is `{}`, and
`controller?.controls.children` throws (`{}.controls` is `undefined`, and
`?.` only guards `controller` itself) — so the lookup of `controls` (and
`outputs`) must succeed or the whole parse fails. -/
def parseMidiMapping (root : XmlNode) : Option MidiMapping :=
  if isXmlElement root then
    let childs := xmlToObject (elemChildren root)
    let controllerObj : String → Option XmlNode :=
      match childs "controller" with
      | some ctrl => xmlToObject (elemChildren ctrl)
      | none => fun _ => none
    let info : MappingInfo :=
      match childs "info" with
      | some infoEl => parseMappingInfo infoEl
      | none => {}
    match controllerObj "controls", controllerObj "outputs" with
    | some controlsEl, some outputsEl =>
      match traverseOption parseControlMapping ((elemChildren controlsEl).filter isXmlElement),
            traverseOption parseOutputMapping ((elemChildren outputsEl).filter isXmlElement) with
      | some controls, some outputs =>
        some { info := info, controls := controls, outputs := outputs }
      | _, _ => none
    | _, _ => none
  else none

/-- The literal `[Channel` prefix of the regex `/\[Channel(\d+)\]/`. -/
def channelLit : List Char := ['[', 'C', 'h', 'a', 'n', 'n', 'e', 'l']

/-- Attempt of the regex `/\[Channel(\d+)\]/` at one position: the literal
prefix, then a non-empty maximal digit run (greedy `\d+`; since `]` is not
a digit, greediness and backtracking coincide), then `]`.  Returns the
captured digit group. -/
def matchChannelAt (cs : List Char) : Option (List Char) :=
  if channelLit.isPrefixOf cs then
    let rest := cs.drop channelLit.length
    let ds := rest.takeWhile Char.isDigit
    if ds.isEmpty then none
    else
      match rest.drop ds.length with
      | ']' :: _ => some ds
      | _ => none
  else none

/-- Regex search (`RegExp.exec` semantics): try the pattern at each
position from the left, returning the leftmost match's captured group. -/
def searchChannel : List Char → Option (List Char)
  | [] => none
  | c :: cs =>
    match matchChannelAt (c :: cs) with
    | some ds => some ds
    | none => searchChannel cs

/-- `deckFromGroup` from `mixxx.ts`: `/\[Channel(\d+)\]/.exec(group)` and
`parseInt` of the captured group (a non-empty decimal digit string, whose
`parseInt` value is its decimal value `digitsVal`); `null` when the regex
does not match. -/
def deckFromGroup (group : String) : Option Nat :=
  (searchChannel group.data).map digitsVal

/-- The predicate of the `find` call on line 116 of `mixxx.ts`:
`c.status === msg.status && c.midino === msg.data[0]`. -/
def controlMatches (msg : MidiMessage) (c : ControlMapping) : Bool :=
  jsStrictEq c.status (JSNum.int msg.status) && jsStrictEq c.midino (JSNum.int msg.data1)

/-- The `find` call on line 116 of `mixxx.ts`: first matching control in
document order, or `undefined`. -/
def findControl (controls : List ControlMapping) (msg : MidiMessage) : Option ControlMapping :=
  controls.find? (controlMatches msg)

/-- The `MixxxControllerMapping` class: a parsed `MidiMapping` plus the
verbatim JS mapping source. -/
structure MixxxControllerMapping where
  midiMapping : MidiMapping
  jsMappingSrc : Option String
deriving DecidableEq

/-- `MixxxControllerMapping.parse` from `mixxx.ts`, taken at the
already-parsed element tree (the external document parser is out of
scope). -/
def MixxxControllerMapping.parse (root : XmlNode) (jsMappingSrc : Option String) :
    Option MixxxControllerMapping :=
  (parseMidiMapping root).map (fun m => { midiMapping := m, jsMappingSrc := jsMappingSrc })

/-- `MixxxControllerMapping.fromMidi` from `mixxx.ts`.  Faithful to the
bug: `control` is the result of `find` and may be `undefined`, yet
`control.group` is accessed unconditionally — when no binding matches, the
method throws (modelled by `none`). -/
def MixxxControllerMapping.fromMidi (self : MixxxControllerMapping) (msg : MidiMessage) :
    Option (List Action) :=
  match findControl self.midiMapping.controls msg with
  | none => none
  | some control =>
    let down := decide (0 < msg.data2)
    let deck := deckFromGroup control.group
    match control.key with
    | "play" => some [{ tag := "press", control := { kind := "play" }, deck := deck, down := down }]
    | _ => some []

/-- `MixxxControllerMapping.toMidi` from `mixxx.ts`: the body is a TODO and
always returns the empty array. -/
def MixxxControllerMapping.toMidi (_self : MixxxControllerMapping) (_output : Output) :
    List MidiMessage :=
  []

/-! ### Concrete fixtures used by the claims -/

/-- An element with a single text child, e.g. `<group>[Channel1]</group>`. -/
def textEl (name content : String) : XmlNode :=
  XmlNode.element name [XmlNode.text content]

/-- A `control` element lacking a `status` child. -/
def controlMissingStatus : XmlNode :=
  XmlNode.element "control"
    [textEl "group" "[Channel1]", textEl "key" "play", textEl "midino" "50",
     XmlNode.element "options" []]

/-- A `control` element whose `status` text is non-numeric. -/
def controlBadStatus : XmlNode :=
  XmlNode.element "control"
    [textEl "group" "[Channel1]", textEl "key" "play", textEl "status" "abc",
     textEl "midino" "50", XmlNode.element "options" []]

/-- A `control` element with out-of-range `status` (999) and `midino` (200). -/
def controlOutOfRange : XmlNode :=
  XmlNode.element "control"
    [textEl "group" "[Channel1]", textEl "key" "play", textEl "status" "999",
     textEl "midino" "200", XmlNode.element "options" []]

/-- A full preset document around a single `control` element. -/
def presetDoc (control : XmlNode) : XmlNode :=
  XmlNode.element "MixxxControllerPreset"
    [XmlNode.element "controller"
      [XmlNode.element "controls" [control], XmlNode.element "outputs" []]]

/-- Document whose sole control lacks a `status` child. -/
def docMissingStatus : XmlNode := presetDoc controlMissingStatus

/-- Document whose sole control has non-numeric `status` text. -/
def docBadStatus : XmlNode := presetDoc controlBadStatus

/-- Document whose sole control has out-of-range `status`/`midino`. -/
def docOutOfRange : XmlNode := presetDoc controlOutOfRange

/-- A well-formed root with no `controller` child at all. -/
def docNoController : XmlNode := XmlNode.element "MixxxControllerPreset" []

/-- The play binding of claim C5: status 0x90, midino 0x20, key `play`,
group `[Channel1]`. -/
def playControl : ControlMapping :=
  { group := "[Channel1]", key := "play"
    status := JSNum.int 0x90, midino := JSNum.int 0x20, options := [] }

/-- A second binding with the same `(status, midino)` as `playControl` but a
different key, for the tie-break claim. -/
def cueControl : ControlMapping :=
  { group := "[Channel1]", key := "cue"
    status := JSNum.int 0x90, midino := JSNum.int 0x20, options := [] }

/-- A mapping whose only control binding is `playControl`. -/
def playMapping : MixxxControllerMapping :=
  { midiMapping := { info := {}, controls := [playControl], outputs := [] }
    jsMappingSrc := none }

/-- A mapping with an empty `controls` sequence. -/
def emptyMapping : MixxxControllerMapping :=
  { midiMapping := { info := {}, controls := [], outputs := [] }
    jsMappingSrc := none }

/-- The output binding of claim C4: minimum 0, maximum 10, on 0x7F, off 0. -/
def c4Binding : OutputMapping :=
  { group := "[Channel1]", key := "vu_meter"
    status := JSNum.int 0xB0, midino := JSNum.int 0x02
    minimum := some (JSNum.int 0), maximum := some (JSNum.int 10)
    onValue := some (JSNum.int 0x7F), offValue := some (JSNum.int 0) }

/-- A mapping whose only output binding is `c4Binding`. -/
def c4Mapping : MixxxControllerMapping :=
  { midiMapping := { info := {}, controls := [], outputs := [c4Binding] }
    jsMappingSrc := none }

/-- Output state holding value 5 for `c4Binding`'s `(group, key)`. -/
def outputValue5 : Output := { values := [(("[Channel1]", "vu_meter"), JSNum.int 5)] }

/-- Output state holding value 15 for `c4Binding`'s `(group, key)`. -/
def outputValue15 : Output := { values := [(("[Channel1]", "vu_meter"), JSNum.int 15)] }

/-- Output state with no value for `c4Binding`'s `(group, key)`. -/
def outputMissing : Output := { values := [] }

/-! ### Helper lemmas about the regex search -/

/-- If the pattern matches at no position of the list, the search fails. -/
theorem searchChannel_eq_none (cs : List Char)
    (h : ∀ i, i ≤ cs.length → matchChannelAt (cs.drop i) = none) :
    searchChannel cs = none := by
  induction cs with
  | nil => rfl
  | cons c cs ih =>
    have h0 := h 0 (Nat.zero_le _)
    rw [List.drop_zero] at h0
    simp only [searchChannel, h0]
    exact ih (fun i hi => by
      have hx := h (i + 1) (Nat.succ_le_succ hi)
      rwa [List.drop_succ_cons] at hx)

/-- A successful search returns the leftmost match: the pattern matches at
the found position and at no earlier one. -/
theorem searchChannel_leftmost (cs ds : List Char) (h : searchChannel cs = some ds) :
    ∃ i, matchChannelAt (cs.drop i) = some ds ∧
      ∀ j, j < i → matchChannelAt (cs.drop j) = none := by
  induction cs with
  | nil => simp [searchChannel] at h
  | cons c cs ih =>
    cases hm : matchChannelAt (c :: cs) with
    | some e =>
      have he : e = ds := by
        simp only [searchChannel, hm] at h
        exact Option.some.inj h
      exact ⟨0, by simpa [he] using hm, fun j hj => absurd hj (Nat.not_lt_zero j)⟩
    | none =>
      have h2 : searchChannel cs = some ds := by simpa only [searchChannel, hm] using h
      obtain ⟨i, h3, h4⟩ := ih h2
      refine ⟨i + 1, by simpa [List.drop_succ_cons] using h3, ?_⟩
      intro j hj
      cases j with
      | zero => simpa using hm
      | succ j => rw [List.drop_succ_cons]; exact h4 j (Nat.lt_of_succ_lt_succ hj)

/-- If the pattern matches at some position, the search succeeds. -/
theorem searchChannel_isSome (cs : List Char) (i : Nat) (ds : List Char)
    (h : matchChannelAt (cs.drop i) = some ds) : ∃ e, searchChannel cs = some e := by
  induction cs generalizing i with
  | nil =>
    rw [List.drop_nil] at h
    have hnone : matchChannelAt ([] : List Char) = none := rfl
    rw [hnone] at h
    exact absurd h (by simp)
  | cons c cs ih =>
    cases hm : matchChannelAt (c :: cs) with
    | some e => exact ⟨e, by simp [searchChannel, hm]⟩
    | none =>
      cases i with
      | zero =>
        rw [List.drop_zero, hm] at h
        exact absurd h (by simp)
      | succ i =>
        rw [List.drop_succ_cons] at h
        obtain ⟨e, he⟩ := ih i h
        exact ⟨e, by simp [searchChannel, hm, he]⟩

/-- `takeWhile` on a block of satisfying elements followed by a failing one
returns exactly the block. -/
theorem takeWhile_all_append (p : Char → Bool) (ds : List Char) (b : Char) (rest : List Char)
    (hd : ∀ c ∈ ds, p c = true) (hb : p b = false) :
    (ds ++ b :: rest).takeWhile p = ds := by
  induction ds with
  | nil => simp [List.takeWhile_cons, hb]
  | cons d ds ih =>
    simp [List.takeWhile_cons, hd d (List.mem_cons_self d ds),
      ih (fun c hc => hd c (List.mem_cons_of_mem d hc))]

/-- The pattern matches a decomposed occurrence: the literal `[Channel`,
a non-empty digit block, then `]`, capturing exactly the digit block. -/
theorem matchChannelAt_decomp (ds rest : List Char) (hne : ds ≠ [])
    (hd : ∀ c ∈ ds, c.isDigit = true) :
    matchChannelAt (channelLit ++ (ds ++ ']' :: rest)) = some ds := by
  have hpre : channelLit.isPrefixOf (channelLit ++ (ds ++ ']' :: rest)) = true :=
    List.isPrefixOf_iff_prefix.mpr (List.prefix_append _ _)
  have hdrop : (channelLit ++ (ds ++ ']' :: rest)).drop channelLit.length = ds ++ ']' :: rest :=
    List.drop_left _ _
  have htake : (ds ++ ']' :: rest).takeWhile Char.isDigit = ds :=
    takeWhile_all_append _ ds ']' rest hd (by decide)
  have hdrop2 : (ds ++ ']' :: rest).drop ds.length = ']' :: rest := List.drop_left _ _
  have hemp : ds.isEmpty = false := by
    cases ds with
    | nil => exact absurd rfl hne
    | cons d ds => rfl
  simp [matchChannelAt, hpre, hdrop, htake, hdrop2, hemp]

/-! ### The claims -/

/-- Claim C1 (code bug): the spec says an unmatched MIDI message decodes to
an empty action sequence, but `fromMidi` reads `control.group` on the
`undefined` result of `find`, so whenever no control binding matches the
message, the method throws a `TypeError` instead (modelled by `none`). -/
theorem c1_unmatched_message_throws (m : MixxxControllerMapping) (msg : MidiMessage)
    (h : findControl m.midiMapping.controls msg = none) :
    m.fromMidi msg = none := by
  simp [MixxxControllerMapping.fromMidi, h]

/-- Witness for C1: the mapping with an empty `controls` sequence matches
nothing, and decoding throws. -/
theorem c1_unmatched_message_throws_witness :
    findControl emptyMapping.midiMapping.controls ⟨0x90, 0x20, 0x7F⟩ = none ∧
    emptyMapping.fromMidi ⟨0x90, 0x20, 0x7F⟩ = none :=
  ⟨rfl, c1_unmatched_message_throws emptyMapping ⟨0x90, 0x20, 0x7F⟩ rfl⟩

/-- Counterexample to claim C2: a control whose `status` text is the
non-numeric `abc` does not make `parse` fail — a `MappingDefinition` is
produced (with `NaN` stored as the status). -/
theorem c2_counterexample : (MixxxControllerMapping.parse docBadStatus none).isSome = true := by
  decide

/-- Claim C2 as amended: a missing `group`/`key`/`status`/`midino` child
makes parsing fail (with a generic runtime `TypeError`; no
`MalformedBindingError` exists in the code), but non-numeric `status` or
`midino` text does not fail: `parseInt` yields `NaN`, which is stored, and
a `MappingDefinition` is produced. -/
theorem c2_missing_field_fails_nonnumeric_passes :
    (∀ el : XmlNode,
       (xmlToObject (elemChildren el) "group" = none ∨
        xmlToObject (elemChildren el) "key" = none ∨
        xmlToObject (elemChildren el) "status" = none ∨
        xmlToObject (elemChildren el) "midino" = none) →
       parseBaseMapping el = none) ∧
    (∀ (el g k st mi : XmlNode),
       xmlToObject (elemChildren el) "group" = some g →
       xmlToObject (elemChildren el) "key" = some k →
       xmlToObject (elemChildren el) "status" = some st →
       xmlToObject (elemChildren el) "midino" = some mi →
       parseBaseMapping el =
         some { group := viewText g, key := viewText k
                status := parseIntJS (viewText st), midino := parseIntJS (viewText mi) }) ∧
    MixxxControllerMapping.parse docMissingStatus none = none ∧
    MixxxControllerMapping.parse docBadStatus none =
      some ⟨⟨{}, [⟨⟨"[Channel1]", "play", JSNum.nan, JSNum.int 50⟩, []⟩], []⟩, none⟩ := by
  refine ⟨?_, ?_, by decide, by decide⟩
  · intro el h
    cases hG : xmlToObject (elemChildren el) "group" <;>
    cases hK : xmlToObject (elemChildren el) "key" <;>
    cases hS : xmlToObject (elemChildren el) "status" <;>
    cases hM : xmlToObject (elemChildren el) "midino" <;>
      simp_all [parseBaseMapping]
  · intro el g k st mi hg hk hs hm
    simp [parseBaseMapping, hg, hk, hs, hm]

/-- Witness for C2 (amended): the general statement applied to the concrete
control elements. -/
theorem c2_missing_field_fails_nonnumeric_passes_witness :
    parseBaseMapping controlMissingStatus = none ∧
    parseBaseMapping controlBadStatus =
      some { group := viewText (textEl "group" "[Channel1]")
             key := viewText (textEl "key" "play")
             status := parseIntJS (viewText (textEl "status" "abc"))
             midino := parseIntJS (viewText (textEl "midino" "50")) } :=
  ⟨c2_missing_field_fails_nonnumeric_passes.1 controlMissingStatus (Or.inr (Or.inr (Or.inl rfl))),
   c2_missing_field_fails_nonnumeric_passes.2.1 controlBadStatus _ _ _ _ rfl rfl rfl rfl⟩

/-- Claim C3 (code bug): the spec says a root without a `controller` element
parses to empty `controls`/`outputs`, but the code sets `controller` to `{}`
and then evaluates `controller?.controls.children`, which throws a
`TypeError` (`{}.controls` is `undefined`; `?.` only guards `controller`).
Parsing fails whenever the `controller` lookup misses. -/
theorem c3_missing_controller_throws (name : String) (children : List XmlNode)
    (js : Option String) (h : xmlToObject children "controller" = none) :
    MixxxControllerMapping.parse (XmlNode.element name children) js = none := by
  simp [MixxxControllerMapping.parse, parseMidiMapping, isXmlElement, elemChildren, h]

/-- Witness for C3: a well-formed root with no children at all. -/
theorem c3_missing_controller_throws_witness :
    xmlToObject ([] : List XmlNode) "controller" = none ∧
    MixxxControllerMapping.parse docNoController none = none :=
  ⟨rfl, c3_missing_controller_throws "MixxxControllerPreset" [] none rfl⟩

/-- Counterexample to claim C4: with the output binding
`{minimum 0, maximum 10, on 0x7F, off 0}` and a current value of 5 for its
`(group, key)`, encoding emits no message at all — in particular not the
claimed single message with `data2 = 0x7F` (nor, at value 15, the `off`
message). -/
theorem c4_counterexample :
    c4Mapping.toMidi outputValue5 = [] ∧
    c4Mapping.toMidi outputValue5 ≠ [{ status := 0xB0, data1 := 0x02, data2 := 0x7F }] ∧
    c4Mapping.toMidi outputValue15 ≠ [{ status := 0xB0, data1 := 0x02, data2 := 0x00 }] := by
  decide

/-- Claim C4 as amended: the encoding direction is unimplemented (`toMidi`
is a TODO stub), so for the claim's output binding every output state —
value 5, value 15, or a missing value — produces no MIDI message. -/
theorem c4_encoder_unimplemented (o : Output) : c4Mapping.toMidi o = [] := rfl

/-- Claim C5: decoding `(0x90, 0x20, 0x7F)` against the play binding yields
exactly one press action with deck 1 and `down = true`; the same message
with `data2 = 0x00` yields `down = false`. -/
theorem c5_play_down_up :
    playMapping.fromMidi ⟨0x90, 0x20, 0x7F⟩ =
      some [{ tag := "press", control := { kind := "play" }, deck := some 1, down := true }] ∧
    playMapping.fromMidi ⟨0x90, 0x20, 0x00⟩ =
      some [{ tag := "press", control := { kind := "play" }, deck := some 1, down := false }] := by
  decide

/-- Claim C6: deck resolution on the four spec examples, and total
robustness — any string in which the pattern matches at no position
resolves to `none` (resolution itself never fails). -/
theorem c6_deck_resolution :
    deckFromGroup "[Channel1]" = some 1 ∧
    deckFromGroup "[Channel12]" = some 12 ∧
    deckFromGroup "[Master]" = none ∧
    deckFromGroup "[Channel]" = none ∧
    ∀ s : String,
      (∀ i, i ≤ s.data.length → matchChannelAt (s.data.drop i) = none) →
      deckFromGroup s = none := by
  refine ⟨by decide, by decide, by decide, by decide, ?_⟩
  intro s h
  simp [deckFromGroup, searchChannel_eq_none s.data h]

/-- Witness for C6: the universally quantified part applied to `[Master]`. -/
theorem c6_deck_resolution_witness :
    (∀ i, i ≤ ("[Master]" : String).data.length →
       matchChannelAt (("[Master]" : String).data.drop i) = none) ∧
    deckFromGroup "[Master]" = none :=
  ⟨by decide, c6_deck_resolution.2.2.2.2 "[Master]" (by decide)⟩

/-- Claim C7: with two control bindings of identical `(status, midino)` but
different keys, `find` (document order) selects a binding from the part of
the list up to and including the earlier one; the later binding is never
selected, regardless of the message's `data2`, and decoding does not
throw. -/
theorem c7_earlier_binding_shadows_later
    (inf : MappingInfo) (outs : List OutputMapping) (js : Option String)
    (pre mid post : List ControlMapping) (a b : ControlMapping) (msg : MidiMessage)
    (hstatus : b.status = a.status) (hmidino : b.midino = a.midino) (hkey : a.key ≠ b.key)
    (hmatch : controlMatches msg a = true) (hbpre : b ∉ pre) :
    (∃ c, findControl (pre ++ a :: mid ++ b :: post) msg = some c ∧
       c ∈ pre ++ [a] ∧ c ≠ b) ∧
    MixxxControllerMapping.fromMidi
      ⟨⟨inf, pre ++ a :: mid ++ b :: post, outs⟩, js⟩ msg ≠ none := by
  have hab : a ≠ b := fun hh => hkey (by rw [hh])
  have hsplit : findControl (pre ++ a :: mid ++ b :: post) msg
      = (List.find? (controlMatches msg) pre).or
          (List.find? (controlMatches msg) (a :: (mid ++ b :: post))) := by
    simp [findControl, List.find?_append]
  have hcons : List.find? (controlMatches msg) (a :: (mid ++ b :: post)) = some a :=
    List.find?_cons_of_pos _ hmatch
  have main : ∃ c, findControl (pre ++ a :: mid ++ b :: post) msg = some c ∧
      c ∈ pre ++ [a] ∧ c ≠ b := by
    cases hp : List.find? (controlMatches msg) pre with
    | none =>
      refine ⟨a, ?_, by simp, hab⟩
      rw [hsplit, hp, hcons]
      rfl
    | some c =>
      refine ⟨c, ?_, List.mem_append_left _ (List.mem_of_find?_eq_some hp), ?_⟩
      · rw [hsplit, hp]
        rfl
      · intro hcb
        exact hbpre (hcb ▸ List.mem_of_find?_eq_some hp)
  refine ⟨main, ?_⟩
  obtain ⟨c, hc, -, -⟩ := main
  simp only [MixxxControllerMapping.fromMidi, hc]
  split <;> simp

/-- Witness for C7: the play and cue bindings sharing `(0x90, 0x20)`. -/
theorem c7_earlier_binding_shadows_later_witness :
    controlMatches ⟨0x90, 0x20, 0x7F⟩ playControl = true ∧
    ((∃ c, findControl ([] ++ playControl :: [] ++ cueControl :: []) ⟨0x90, 0x20, 0x7F⟩ = some c ∧
        c ∈ [] ++ [playControl] ∧ c ≠ cueControl) ∧
      MixxxControllerMapping.fromMidi
        ⟨⟨{}, [] ++ playControl :: [] ++ cueControl :: [], []⟩, none⟩ ⟨0x90, 0x20, 0x7F⟩ ≠ none) :=
  ⟨by decide,
   c7_earlier_binding_shadows_later {} [] none [] [] [] playControl cueControl ⟨0x90, 0x20, 0x7F⟩
     rfl rfl (by decide) (by decide) (by simp)⟩

/-- Counterexample to claim C8: a document whose control carries
`status = 999` (outside 0–255) and `midino = 200` (outside 0–127) is not
rejected — `parse` succeeds. -/
theorem c8_counterexample : (MixxxControllerMapping.parse docOutOfRange none).isSome = true := by
  decide

/-- Claim C8 as amended: the parser performs no range validation at all;
out-of-range `status`/`midino` values are stored unchanged in the resulting
`MappingDefinition`. -/
theorem c8_no_range_validation :
    MixxxControllerMapping.parse docOutOfRange none =
      some ⟨⟨{}, [⟨⟨"[Channel1]", "play", JSNum.int 999, JSNum.int 200⟩, []⟩], []⟩, none⟩ ∧
    ¬ ((999 : Nat) ≤ 255) ∧ ¬ ((200 : Nat) ≤ 127) := by
  decide

/-- Claim C9: `toMidi` returns the empty sequence for every mapping and
every output state — no feedback message is ever emitted. -/
theorem c9_toMidi_always_empty (m : MixxxControllerMapping) (o : Output) : m.toMidi o = [] := rfl

/-- Claim C10: the regex is unanchored — for every prefix, non-empty digit
block and suffix, the assembled group string resolves to some deck number,
namely the value captured at the leftmost position where the pattern
matches. -/
theorem c10_channel_pattern_matches_anywhere (p n s : String)
    (hne : n.data ≠ []) (hd : ∀ c ∈ n.data, c.isDigit = true) :
    ∃ k, deckFromGroup (p ++ "[Channel" ++ n ++ "]" ++ s) = some k ∧
      ∃ i, (∃ ds, matchChannelAt (((p ++ "[Channel" ++ n ++ "]" ++ s).data).drop i) = some ds ∧
              digitsVal ds = k) ∧
        ∀ j, j < i → matchChannelAt (((p ++ "[Channel" ++ n ++ "]" ++ s).data).drop j) = none := by
  have h1 : ("[Channel" : String).data = channelLit := rfl
  have h2 : ("]" : String).data = [']'] := rfl
  have hdata : (p ++ "[Channel" ++ n ++ "]" ++ s).data
      = p.data ++ (channelLit ++ (n.data ++ ']' :: s.data)) := by
    simp [String.data_append, h1, h2, List.append_assoc, channelLit]
  have hmatch : matchChannelAt (((p ++ "[Channel" ++ n ++ "]" ++ s).data).drop p.data.length)
      = some n.data := by
    rw [hdata, List.drop_left]
    exact matchChannelAt_decomp n.data s.data hne hd
  obtain ⟨e, he⟩ := searchChannel_isSome _ p.data.length n.data hmatch
  refine ⟨digitsVal e, ?_, ?_⟩
  · unfold deckFromGroup
    rw [he]
    rfl
  · obtain ⟨i, hi1, hi2⟩ := searchChannel_leftmost _ e he
    exact ⟨i, ⟨e, hi1, rfl⟩, hi2⟩

/-- Witness for C10: prefix `x`, digits `2`, suffix `y`; the assembled
string `x[Channel2]y` resolves to deck 2. -/
theorem c10_channel_pattern_matches_anywhere_witness :
    ("2" : String).data ≠ [] ∧ (∀ c ∈ ("2" : String).data, c.isDigit = true) ∧
    (∃ k, deckFromGroup ("x" ++ "[Channel" ++ "2" ++ "]" ++ "y") = some k ∧
      ∃ i, (∃ ds, matchChannelAt ((("x" ++ "[Channel" ++ "2" ++ "]" ++ "y").data).drop i) = some ds ∧
              digitsVal ds = k) ∧
        ∀ j, j < i →
          matchChannelAt ((("x" ++ "[Channel" ++ "2" ++ "]" ++ "y").data).drop j) = none) ∧
    deckFromGroup "x[Channel2]y" = some 2 :=
  ⟨by decide, by decide,
   c10_channel_pattern_matches_anywhere "x" "2" "y" (by decide) (by decide), by decide⟩

end Mixxx
